import Mathlib

/-
Verification of the hook execution engine
(src/extensions/vscode/src/kiro/services/HookExecutionEngine.ts).

The engine is embedded shallowly and executably:
 - the Hook shape is the interface from views/HooksStatus.ts;
 - JavaScript Map objects become insertion-ordered association lists
   (mapGet / mapSet / mapDelete mirror Map.get / Map.set / Map.delete);
 - each vscode.FileSystemWatcher created by setupHookWatchers becomes a
   Watcher record carrying the hook object captured by its closure, its
   glob pattern, the kind of onDidChange handler that was attached, and a
   disposed flag;
 - the external VS Code event source is modelled by fireChange, which
   delivers a changed path to every live watcher whose pattern matches
   (globMatch models the VS Code glob matcher on exactly the pattern
   shapes the engine generates);
 - Date timestamps become Nat values threaded as a parameter;
 - whether an action invocation raises is abstracted by a parameter
   fails : String -> Bool over action strings, since success or failure
   of the external collaborators (chat command, terminal) is outside the
   engine;
 - the asynchronous consumer is modelled by processExecutionQueue, which
   drains the whole queue in order, returning the processed entries with
   their results.
-/

inductive Trigger
  | preCommit
  | postSave
  | prePush
  | onStart
  | custom
deriving DecidableEq

inductive Status
  | active
  | disabled
  | error
  | pending
deriving DecidableEq

/-- The Hook interface from views/HooksStatus.ts. -/
structure Hook where
  id : String
  name : String
  description : String
  trigger : Trigger
  actions : List String
  enabled : Bool
  lastExecuted : Option Nat
  status : Status
deriving DecidableEq

/-- The data payloads the engine attaches to queued executions. -/
inductive Payload
  | fileData (file : String)
  | startData (timestamp : Nat)
  | customData (file : String) (action : List String)
  | manualData (data : Option String)
deriving DecidableEq

/-- One entry of the execution queue: hook object, trigger label, payload. -/
structure QueueEntry where
  hook : Hook
  trigger : String
  data : Payload
deriving DecidableEq

/-- Which onDidChange handler setupHookWatchers attached to a watcher. -/
inductive HandlerKind
  | fileChanged
  | customTrigger
deriving DecidableEq

/-- A created vscode.FileSystemWatcher: allocation id, the hook object the
handler closure captured, the glob pattern, the attached handler (none for
trigger kinds that attach no handler), and whether dispose was called. -/
structure Watcher where
  wid : Nat
  hook : Hook
  pattern : String
  handler : Option HandlerKind
  disposed : Bool
deriving DecidableEq

/-- The mutable fields of the HookExecutionEngine class.  watchers records
every watcher ever created (dispose is a flag, since a JS watcher object
keeps firing until disposed even when dropped from the fileWatchers map). -/
structure EngineState where
  activeHooks : List (String × Hook)
  fileWatchers : List (String × Nat)
  watchers : List Watcher
  executionQueue : List QueueEntry
  nextWid : Nat
deriving DecidableEq

/-- What executeHook reports through vscode.window: a success message, or
an error message whose second argument offers a Retry item. -/
inductive Notification
  | success (hookName : String)
  | failure (hookName : String) (offersRetry : Bool)
deriving DecidableEq

/-- Result of one executeHook call: the mutated hook object, the actions
that were actually invoked, and the notification shown. -/
structure ExecResult where
  hook : Hook
  invoked : List String
  notif : Notification
deriving DecidableEq

/-- The error thrown by triggerHook for an unknown hook id. -/
inductive EngineError
  | notFound (hookId : String)
deriving DecidableEq

/-- Structural containment test on character lists. -/
def listIsInfixOf (needle : List Char) : List Char → Bool
  | [] => needle.isEmpty
  | c :: rest => needle.isPrefixOf (c :: rest) || listIsInfixOf needle rest

/-- String containment, as in JavaScript String.prototype.includes. -/
def strIncludes (needle hay : String) : Bool :=
  listIsInfixOf needle.data hay.data

/-- String suffix test. -/
def strEndsWith (suffix s : String) : Bool :=
  suffix.data.isSuffixOf s.data

/-- path.basename for posix paths: the segment after the last slash. -/
def basename (p : String) : String :=
  String.mk ((p.data.reverse.takeWhile (fun c => c ≠ '/')).reverse)

def mapGet {α : Type} : List (String × α) → String → Option α
  | [], _ => none
  | (k', v') :: rest, k => if k' = k then some v' else mapGet rest k

def mapSet {α : Type} : List (String × α) → String → α → List (String × α)
  | [], k, v => [(k, v)]
  | (k', v') :: rest, k, v =>
    if k' = k then (k, v) :: rest else (k', v') :: mapSet rest k v

def mapDelete {α : Type} : List (String × α) → String → List (String × α)
  | [], _ => []
  | (k', v') :: rest, k => if k' = k then rest else (k', v') :: mapDelete rest k

/-- The source-file extension list of the first post-save pattern. -/
def srcExts : List String :=
  ["ts", "tsx", "js", "jsx", "py", "rs", "go", "java", "cpp", "c", "cs",
   "php", "rb", "swift", "kt"]

/-- The document extension list of the second post-save pattern. -/
def docExts : List String :=
  ["md", "txt", "json", "yaml", "yml", "xml", "html", "css", "scss"]

/-- First glob pattern returned by getHookPatterns for post-save. -/
def srcPat : String :=
  "**/*.\x7bts,tsx,js,jsx,py,rs,go,java,cpp,c,cs,php,rb,swift,kt\x7d"

/-- Second glob pattern returned by getHookPatterns for post-save. -/
def docPat : String :=
  "**/*.\x7bmd,txt,json,yaml,yml,xml,html,css,scss\x7d"

/-- getHookPatterns: watch patterns per trigger kind.  pre-commit and
pre-push fall into the default branch and yield no patterns. -/
def getHookPatterns (hook : Hook) : List String :=
  match hook.trigger with
  | Trigger.postSave => [srcPat, docPat]
  | Trigger.onStart => []
  | Trigger.custom => hook.actions.map (fun action => "**/" ++ action)
  | _ => []

/-- Model of the external VS Code glob matcher, on exactly the pattern
shapes the engine generates: the two fixed extension-alternative patterns
match a path ending in one of the listed extensions, and a pattern of the
form **/lit matches a path equal to lit or ending in /lit. -/
def globMatch (pat p : String) : Bool :=
  if pat = srcPat then srcExts.any (fun e => strEndsWith ("." ++ e) p)
  else if pat = docPat then docExts.any (fun e => strEndsWith ("." ++ e) p)
  else
    match pat.data with
    | '*' :: '*' :: '/' :: lit => decide (p.data = lit) || ('/' :: lit).isSuffixOf p.data
    | _ => false

/-- queueHookExecution: push one entry at the tail of the queue.  (The
kick of processExecutionQueue when no consumer is active is modelled by
running processExecutionQueue separately.) -/
def queueHookExecution (s : EngineState) (hook : Hook) (trigger : String)
    (data : Payload) : EngineState :=
  { s with executionQueue :=
      s.executionQueue ++ [{ hook := hook, trigger := trigger, data := data }] }

/-- Which onDidChange handler the setupHookWatchers branches attach for a
given trigger kind (none for on-start and the git triggers). -/
def handlerFor : Trigger → Option HandlerKind
  | Trigger.postSave => some HandlerKind.fileChanged
  | Trigger.custom => some HandlerKind.customTrigger
  | _ => none

/-- One iteration of the for-loop of setupHookWatchers: create the watcher
for one pattern; for pre-commit and pre-push skip the rest of the body
(the watcher is created but neither handled nor tracked); for on-start
enqueue an onStart execution; finally track the watcher in the
fileWatchers map under the hook id, overwriting any previous entry. -/
def setupStep (hook : Hook) (now : Nat) (s : EngineState) (pattern : String) :
    EngineState :=
  let w : Watcher :=
    { wid := s.nextWid, hook := hook, pattern := pattern,
      handler := handlerFor hook.trigger, disposed := false }
  let s1 := { s with watchers := s.watchers ++ [w], nextWid := s.nextWid + 1 }
  if hook.trigger = Trigger.preCommit ∨ hook.trigger = Trigger.prePush then s1
  else
    let s2 :=
      if hook.trigger = Trigger.onStart then
        queueHookExecution s1 hook "onStart" (Payload.startData now)
      else s1
    { s2 with fileWatchers := mapSet s2.fileWatchers hook.id w.wid }

/-- setupHookWatchers: run the loop body over getHookPatterns. -/
def setupHookWatchers (hook : Hook) (now : Nat) (s : EngineState) : EngineState :=
  (getHookPatterns hook).foldl (setupStep hook now) s

/-- registerHook: a disabled hook is skipped entirely; an enabled hook is
stored in activeHooks (replacing any previous entry with the same id) and
then its watchers are set up.  No validation is performed and nothing is
thrown to the caller (errors inside setup would be caught and logged). -/
def registerHook (now : Nat) (s : EngineState) (hook : Hook) : EngineState :=
  if hook.enabled then
    setupHookWatchers hook now
      { s with activeHooks := mapSet s.activeHooks hook.id hook }
  else s

/-- unregisterHook: no-op for an unknown id; otherwise dispose the tracked
watcher for that id (if any), drop it from fileWatchers, and remove the
hook from activeHooks.  The execution queue is not touched. -/
def unregisterHook (s : EngineState) (hookId : String) : EngineState :=
  match mapGet s.activeHooks hookId with
  | none => s
  | some _ =>
    let s1 :=
      match mapGet s.fileWatchers hookId with
      | some wid =>
        { s with
          watchers := s.watchers.map
            (fun (w : Watcher) =>
              if w.wid = wid then { w with disposed := true } else w),
          fileWatchers := mapDelete s.fileWatchers hookId }
      | none => s
    { s1 with activeHooks := mapDelete s1.activeHooks hookId }

/-- The substring test of setupCustomTriggers: some action string occurs
in the changed file's name or in its full path. -/
def customCond (hook : Hook) (path : String) : Bool :=
  hook.actions.any
    (fun action => strIncludes action (basename path) || strIncludes action path)

/-- Delivery of one file-change event to one watcher: a live watcher whose
pattern matches runs its attached handler.  The post-save handler enqueues
directly; the custom handler (setupCustomTriggers) enqueues only when the
customCond substring test passes. -/
def watcherFires (path : String) (w : Watcher) (s : EngineState) : EngineState :=
  if w.disposed then s
  else if globMatch w.pattern path then
    match w.handler with
    | some HandlerKind.fileChanged =>
      queueHookExecution s w.hook "fileChanged" (Payload.fileData path)
    | some HandlerKind.customTrigger =>
      if customCond w.hook path then
        queueHookExecution s w.hook "customTrigger"
          (Payload.customData path w.hook.actions)
      else s
    | none => s
  else s

def fireChangeAux (path : String) (ws : List Watcher) (s : EngineState) :
    EngineState :=
  ws.foldl (fun acc w => watcherFires path w acc) s

/-- One file-change event from the external event source: every created
watcher receives it, in creation order. -/
def fireChange (s : EngineState) (path : String) : EngineState :=
  fireChangeAux path s.watchers s

/-- Run a hook's actions in order against the abstract failure predicate:
returns the prefix of actions actually invoked and whether one raised.
The first failing action aborts the remaining ones. -/
def runActions (fails : String → Bool) : List String → List String × Bool
  | [] => ([], false)
  | a :: rest =>
    if fails a then ([a], true)
    else
      let r := runActions fails rest
      (a :: r.1, r.2)

/-- executeHook: set status to pending and stamp lastExecuted before any
action runs; invoke the actions in order; on success set status active and
show a success message; if an action raises, catch it, set status error
and show an error message offering Retry (re-enqueue happens only if the
user later picks Retry — never automatically). -/
def executeHook (fails : String → Bool) (now : Nat) (hook : Hook)
    (trigger : String) (data : Payload) : ExecResult :=
  let started := { hook with status := Status.pending, lastExecuted := some now }
  let r := runActions fails started.actions
  if r.2 then
    { hook := { started with status := Status.error }, invoked := r.1,
      notif := Notification.failure hook.name true }
  else
    { hook := { started with status := Status.active }, invoked := r.1,
      notif := Notification.success hook.name }

/-- The user picking Retry on the failure notification: an explicit
re-enqueue of the same (hook, trigger, data) tuple. -/
def userRetry (s : EngineState) (hook : Hook) (trigger : String)
    (data : Payload) : EngineState :=
  queueHookExecution s hook trigger data

/-- The while-loop of processExecutionQueue: shift the head entry, execute
it (executeHook catches action failures itself, and the loop has its own
catch), and proceed to the next entry; record the processing order. -/
def drainQueue (fails : String → Bool) (now : Nat) :
    List QueueEntry → List (QueueEntry × ExecResult)
  | [] => []
  | e :: rest =>
    (e, executeHook fails now e.hook e.trigger e.data) :: drainQueue fails now rest

/-- processExecutionQueue: drain the whole queue, in order, to emptiness. -/
def processExecutionQueue (fails : String → Bool) (now : Nat)
    (s : EngineState) : EngineState × List (QueueEntry × ExecResult) :=
  ({ s with executionQueue := [] }, drainQueue fails now s.executionQueue)

/-- triggerHook: throw for an unknown id, otherwise enqueue one execution
with trigger label "manual". -/
def triggerHook (s : EngineState) (hookId : String) (data : Option String) :
    Except EngineError EngineState :=
  match mapGet s.activeHooks hookId with
  | none => Except.error (EngineError.notFound hookId)
  | some hook =>
    Except.ok (queueHookExecution s hook "manual" (Payload.manualData data))

/-- getActiveHooks: the registry values, in insertion order. -/
def getActiveHooks (s : EngineState) : List Hook :=
  s.activeHooks.map (fun p => p.2)

/-- getHook: registry lookup by id. -/
def getHook (s : EngineState) (hookId : String) : Option Hook :=
  mapGet s.activeHooks hookId

/-- Whether a watcher id is tracked in the fileWatchers map. -/
def isTracked (s : EngineState) (wid : Nat) : Bool :=
  s.fileWatchers.any (fun p => p.2 = wid)

/-- dispose: dispose every tracked watcher (the values of the fileWatchers
map), clear both maps, and discard the pending queue without executing
anything. -/
def dispose (s : EngineState) : EngineState :=
  { s with
    watchers := s.watchers.map
      (fun (w : Watcher) =>
        if isTracked s w.wid then { w with disposed := true } else w),
    fileWatchers := [],
    activeHooks := [],
    executionQueue := [] }

/-- Enqueue a list of entries one after the other. -/
def enqueueAll (s : EngineState) (es : List QueueEntry) : EngineState :=
  es.foldl (fun acc e => queueHookExecution acc e.hook e.trigger e.data) s

/-- The fresh engine right after construction. -/
def initialEngine : EngineState :=
  { activeHooks := [], fileWatchers := [], watchers := [],
    executionQueue := [], nextWid := 0 }

/-- Whether delivering a change for a path makes a given watcher enqueue:
the watcher is live, its pattern matches, and its handler's own condition
holds (unconditional for the post-save handler, the action-substring test
for the custom handler, and no handler never enqueues). -/
def firesOn (path : String) (w : Watcher) : Bool :=
  !w.disposed && globMatch w.pattern path &&
    (match w.handler with
     | some HandlerKind.fileChanged => true
     | some HandlerKind.customTrigger => customCond w.hook path
     | none => false)

/-- The queue entry a firing watcher produces. -/
def firedEntry (path : String) (w : Watcher) : QueueEntry :=
  match w.handler with
  | some HandlerKind.fileChanged =>
    { hook := w.hook, trigger := "fileChanged", data := Payload.fileData path }
  | _ =>
    { hook := w.hook, trigger := "customTrigger",
      data := Payload.customData path w.hook.actions }

/-- The watchers setupHookWatchers creates for a custom-trigger hook: one
per pattern, with consecutive allocation ids. -/
def customWatchList (hook : Hook) (start : Nat) : List String → List Watcher
  | [] => []
  | q :: qs =>
    { wid := start, hook := hook, pattern := q,
      handler := some HandlerKind.customTrigger, disposed := false }
      :: customWatchList hook (start + 1) qs

/-- Scenario hook: on-start trigger, one sendChat action, enabled. -/
def hOn : Hook :=
  { id := "h1", name := "h1", description := "", trigger := Trigger.onStart,
    actions := ["sendChat:hello"], enabled := true, lastExecuted := none,
    status := Status.active }

/-- Scenario hook: enabled hook with an empty actions list. -/
def hEmpty : Hook :=
  { id := "h3", name := "h3", description := "d", trigger := Trigger.custom,
    actions := [], enabled := true, lastExecuted := none,
    status := Status.active }

/-- Custom hook with two actions whose derived patterns overlap on a path. -/
def hCustom2 : Hook :=
  { id := "hc", name := "hc", description := "d", trigger := Trigger.custom,
    actions := ["a.txt", "x/a.txt"], enabled := true, lastExecuted := none,
    status := Status.active }

/-- Custom hook with a single action. -/
def hCustom1 : Hook :=
  { id := "hc4", name := "hc4", description := "d", trigger := Trigger.custom,
    actions := ["a.txt"], enabled := true, lastExecuted := none,
    status := Status.active }

/-- A disabled hook. -/
def hDis : Hook :=
  { id := "h5", name := "h5", description := "d", trigger := Trigger.postSave,
    actions := ["runCommand:echo hi"], enabled := false, lastExecuted := none,
    status := Status.active }

/-- Hook whose middle action will be made to fail in witnesses. -/
def hFail : Hook :=
  { id := "h4", name := "h4", description := "d", trigger := Trigger.custom,
    actions := ["ok", "bad", "skip"], enabled := true, lastExecuted := none,
    status := Status.active }

theorem mapGet_mapSet_self {α : Type} (m : List (String × α)) (k : String) (v : α) :
    mapGet (mapSet m k v) k = some v := by
  induction m with
  | nil => simp [mapSet, mapGet]
  | cons p rest ih =>
    obtain ⟨k', v'⟩ := p
    by_cases h : k' = k
    · simp [mapSet, h, mapGet]
    · simp [mapSet, h, mapGet, ih]

theorem listIsInfixOf_iff (n l : List Char) : listIsInfixOf n l = true ↔ n <:+: l := by
  induction l with
  | nil => simp [listIsInfixOf, List.isEmpty_iff]
  | cons c rest ih =>
    simp [listIsInfixOf, List.infix_cons_iff, ih, List.isPrefixOf_iff_prefix,
      Bool.or_eq_true]

theorem eq_data_strIncludes (a p : String) (h : p.data = a.data) :
    strIncludes a p = true := by
  rw [strIncludes, listIsInfixOf_iff, h]

theorem suffix_strIncludes (a p : String)
    (h : ('/' :: a.data).isSuffixOf p.data = true) : strIncludes a p = true := by
  rw [strIncludes, listIsInfixOf_iff]
  have hs : ('/' :: a.data) <:+ p.data := by
    rwa [List.isSuffixOf_iff_suffix] at h
  exact ((List.suffix_cons '/' a.data).trans hs).isInfix

theorem globMatch_litPattern (a p : String) (h1 : "**/" ++ a ≠ srcPat)
    (h2 : "**/" ++ a ≠ docPat) :
    globMatch ("**/" ++ a) p
      = (decide (p.data = a.data) || ('/' :: a.data).isSuffixOf p.data) := by
  rw [globMatch, if_neg h1, if_neg h2]
  have hd : ("**/" ++ a).data = '*' :: '*' :: '/' :: a.data := by
    rw [String.data_append]; rfl
  rw [hd]; rfl

theorem globMatch_strIncludes (a p : String) (h1 : "**/" ++ a ≠ srcPat)
    (h2 : "**/" ++ a ≠ docPat) (h : globMatch ("**/" ++ a) p = true) :
    strIncludes a p = true := by
  rw [globMatch_litPattern a p h1 h2] at h
  rcases Bool.or_eq_true_iff.mp h with h' | h'
  · exact eq_data_strIncludes a p (of_decide_eq_true h')
  · exact suffix_strIncludes a p h'

theorem watcherFires_queue (path : String) (w : Watcher) (s : EngineState) :
    (watcherFires path w s).executionQueue
      = s.executionQueue ++ (if firesOn path w then [firedEntry path w] else []) := by
  obtain ⟨wid, hook, pattern, handler, disposed⟩ := w
  cases disposed
  · cases hg : globMatch pattern path
    · simp [watcherFires, firesOn, hg]
    · rcases handler with _ | k
      · simp [watcherFires, firesOn, hg]
      · cases k
        · simp [watcherFires, firesOn, firedEntry, queueHookExecution, hg]
        · cases hc : customCond hook path
          · simp [watcherFires, firesOn, hg, hc]
          · simp [watcherFires, firesOn, firedEntry, queueHookExecution, hg, hc]
  · simp [watcherFires, firesOn]

theorem fireChangeAux_queue (path : String) (ws : List Watcher) :
    ∀ (s : EngineState),
      (fireChangeAux path ws s).executionQueue
        = s.executionQueue ++ (ws.filter (firesOn path)).map (firedEntry path) := by
  induction ws with
  | nil => intro s; simp [fireChangeAux]
  | cons w ws ih =>
    intro s
    have hstep : fireChangeAux path (w :: ws) s
        = fireChangeAux path ws (watcherFires path w s) := rfl
    rw [hstep, ih (watcherFires path w s), watcherFires_queue]
    cases hf : firesOn path w <;>
      simp [hf, List.filter_cons, List.append_assoc]

theorem fireChange_queue (s : EngineState) (path : String) :
    (fireChange s path).executionQueue
      = s.executionQueue ++ (s.watchers.filter (firesOn path)).map (firedEntry path) :=
  fireChangeAux_queue path s.watchers s

theorem setupStep_activeHooks (hook : Hook) (now : Nat) (s : EngineState)
    (q : String) : (setupStep hook now s q).activeHooks = s.activeHooks := by
  simp only [setupStep, queueHookExecution]
  split
  · rfl
  · split <;> rfl

theorem setupFold_activeHooks (hook : Hook) (now : Nat) :
    ∀ (qs : List String) (s : EngineState),
      (qs.foldl (setupStep hook now) s).activeHooks = s.activeHooks := by
  intro qs
  induction qs with
  | nil => intro s; rfl
  | cons q qs ih =>
    intro s
    rw [List.foldl_cons, ih (setupStep hook now s q), setupStep_activeHooks]

theorem registerHook_stores (now : Nat) (s : EngineState) (hook : Hook)
    (he : hook.enabled = true) :
    getHook (registerHook now s hook) hook.id = some hook := by
  simp only [registerHook, he, if_true, getHook, setupHookWatchers,
    setupFold_activeHooks]
  exact mapGet_mapSet_self s.activeHooks hook.id hook

theorem setupStep_custom (hook : Hook) (hc : hook.trigger = Trigger.custom)
    (now : Nat) (s : EngineState) (q : String) :
    setupStep hook now s q =
      { s with
        watchers := s.watchers ++
          [{ wid := s.nextWid, hook := hook, pattern := q,
             handler := some HandlerKind.customTrigger, disposed := false }],
        nextWid := s.nextWid + 1,
        fileWatchers := mapSet s.fileWatchers hook.id s.nextWid } := by
  simp [setupStep, handlerFor, hc]

theorem setupFold_custom (hook : Hook) (hc : hook.trigger = Trigger.custom)
    (now : Nat) :
    ∀ (qs : List String) (s : EngineState),
      (qs.foldl (setupStep hook now) s).watchers
          = s.watchers ++ customWatchList hook s.nextWid qs
      ∧ (qs.foldl (setupStep hook now) s).executionQueue = s.executionQueue
      ∧ (qs.foldl (setupStep hook now) s).nextWid = s.nextWid + qs.length := by
  intro qs
  induction qs with
  | nil => intro s; exact ⟨by simp [customWatchList], rfl, rfl⟩
  | cons q qs ih =>
    intro s
    rw [List.foldl_cons, setupStep_custom hook hc now s q]
    obtain ⟨h1, h2, h3⟩ := ih _
    refine ⟨?_, ?_, ?_⟩
    · rw [h1]; simp [customWatchList, List.append_assoc]
    · rw [h2]
    · rw [h3]; simp; omega

theorem registerHook_custom (hook : Hook) (he : hook.enabled = true)
    (hc : hook.trigger = Trigger.custom) (now : Nat) (s : EngineState) :
    (registerHook now s hook).watchers
        = s.watchers ++ customWatchList hook s.nextWid
            (hook.actions.map (fun a => "**/" ++ a))
    ∧ (registerHook now s hook).executionQueue = s.executionQueue
    ∧ (registerHook now s hook).activeHooks = mapSet s.activeHooks hook.id hook
    ∧ (registerHook now s hook).nextWid = s.nextWid + hook.actions.length := by
  simp only [registerHook, he, if_true, setupHookWatchers, getHookPatterns, hc]
  obtain ⟨h1, h2, h3⟩ :=
    setupFold_custom hook hc now (hook.actions.map (fun a => "**/" ++ a))
      { s with activeHooks := mapSet s.activeHooks hook.id hook }
  refine ⟨by rw [h1], by rw [h2], by rw [setupFold_activeHooks], by rw [h3]; simp⟩

theorem customWatchList_length (hook : Hook) :
    ∀ (qs : List String) (start : Nat),
      (customWatchList hook start qs).length = qs.length := by
  intro qs
  induction qs with
  | nil => intro start; rfl
  | cons q qs ih => intro start; simp [customWatchList, ih]

theorem customWatchList_live (hook : Hook) :
    ∀ (qs : List String) (start : Nat) (w : Watcher),
      w ∈ customWatchList hook start qs → w.disposed = false := by
  intro qs
  induction qs with
  | nil => intro start w hw; simp [customWatchList] at hw
  | cons q qs ih =>
    intro start w hw
    rcases (List.mem_cons).mp hw with h | h
    · rw [h]
    · exact ih (start + 1) w h

theorem customWatchList_filter_length (hook : Hook) (p : String) :
    ∀ (qs : List String) (start : Nat),
      ((customWatchList hook start qs).filter (firesOn p)).length
        = (qs.filter (fun q => globMatch q p && customCond hook p)).length := by
  intro qs
  induction qs with
  | nil => intro start; rfl
  | cons q qs ih =>
    intro start
    have hfire : firesOn p
        { wid := start, hook := hook, pattern := q,
          handler := some HandlerKind.customTrigger, disposed := false }
        = (globMatch q p && customCond hook p) := by
      simp [firesOn]
    cases hb : (globMatch q p && customCond hook p) <;>
      simp [customWatchList, List.filter_cons, hfire, hb, ih]

theorem enqueueAll_queue : ∀ (es : List QueueEntry) (s : EngineState),
    (enqueueAll s es).executionQueue = s.executionQueue ++ es := by
  intro es
  induction es with
  | nil => intro s; simp [enqueueAll]
  | cons e es ih =>
    intro s
    have hstep : enqueueAll s (e :: es)
        = enqueueAll (queueHookExecution s e.hook e.trigger e.data) es := rfl
    rw [hstep, ih, queueHookExecution]
    simp

theorem drainQueue_fst (fails : String → Bool) (now : Nat) :
    ∀ (q : List QueueEntry), (drainQueue fails now q).map Prod.fst = q := by
  intro q
  induction q with
  | nil => rfl
  | cons e rest ih => simp [drainQueue, ih]

theorem runActions_fail (fails : String → Bool) (a : String)
    (ha : fails a = true) :
    ∀ (pre : List String), (∀ b ∈ pre, fails b = false) →
      ∀ (post : List String),
        runActions fails (pre ++ a :: post) = (pre ++ [a], true) := by
  intro pre
  induction pre with
  | nil => intro _ post; simp [runActions, ha]
  | cons b pre ih =>
    intro hpre post
    have hb : fails b = false := hpre b (List.mem_cons_self b pre)
    have hrest : ∀ c ∈ pre, fails c = false :=
      fun c hc => hpre c (List.mem_cons_of_mem b hc)
    simp [runActions, hb, ih hrest post]

/-- C1: the claim says an enabled on-start hook gets exactly one queued
execution, synchronously, at registration time.  The code disagrees: the
on-start enqueue sits inside the loop over getHookPatterns, which returns
the empty list for on-start, so registering the scenario-1 hook stores it
but enqueues nothing and creates no watcher. -/
theorem onStart_registration_enqueues_nothing :
    (registerHook 0 initialEngine hOn).executionQueue = []
    ∧ (registerHook 0 initialEngine hOn).watchers = []
    ∧ getHook (registerHook 0 initialEngine hOn) "h1" = some hOn :=
  ⟨rfl, rfl, rfl⟩

/-- C2 counterexample: registering the scenario-3 hook (empty actions,
enabled) raises nothing and the hook does appear in the active-hook list,
contradicting the claimed ValidationError and non-storage. -/
theorem emptyActions_hook_is_stored :
    getActiveHooks (registerHook 0 initialEngine hEmpty) = [hEmpty] := rfl

/-- C2 amended: register performs no validation at all; a hook with an
empty actions list and enabled = true is stored like any other hook and
register returns normally. -/
theorem register_accepts_empty_actions (now : Nat) (s : EngineState)
    (hook : Hook) (hact : hook.actions = []) (he : hook.enabled = true) :
    getHook (registerHook now s hook) hook.id = some hook :=
  registerHook_stores now s hook he

/-- Witness for register_accepts_empty_actions at the scenario-3 hook. -/
theorem register_accepts_empty_actions_witness :
    getHook (registerHook 0 initialEngine hEmpty) "h3" = some hEmpty :=
  register_accepts_empty_actions 0 initialEngine hEmpty rfl rfl

/-- C5 counterexample: registering a disabled hook does not record it in
the registry, contradicting the claimed record-without-watcher behavior. -/
theorem disabled_hook_not_recorded :
    getHook (registerHook 0 initialEngine hDis) "h5" = none := rfl

/-- C5 amended: register on a hook with enabled = false is a complete
no-op: the hook is not stored, no watcher is created, and no status field
of any hook is modified (registration touches no status at all). -/
theorem register_disabled_hook_is_noop (now : Nat) (s : EngineState)
    (hook : Hook) (he : hook.enabled = false) :
    registerHook now s hook = s := by
  simp [registerHook, he]

/-- Witness for register_disabled_hook_is_noop at a concrete disabled
hook. -/
theorem register_disabled_hook_is_noop_witness :
    registerHook 0 initialEngine hDis = initialEngine :=
  register_disabled_hook_is_noop 0 initialEngine hDis rfl

/-- C6: enqueues append at the tail in order, without deduplication (the
entry list may repeat hooks or whole entries), and the consumer processes
the queue in exactly the enqueue order, leaving the queue empty. -/
theorem queue_is_strict_fifo (s : EngineState) (es : List QueueEntry)
    (fails : String → Bool) (now : Nat) :
    (enqueueAll s es).executionQueue = s.executionQueue ++ es
    ∧ ((processExecutionQueue fails now (enqueueAll s es)).2).map Prod.fst
        = s.executionQueue ++ es
    ∧ ((processExecutionQueue fails now (enqueueAll s es)).1).executionQueue
        = [] := by
  refine ⟨enqueueAll_queue es s, ?_, rfl⟩
  rw [processExecutionQueue]
  simp [drainQueue_fst, enqueueAll_queue es s]

/-- C8: manual triggering of an unknown id throws the not-found error;
for a registered id it appends exactly one entry with trigger label
"manual" (whatever the hook's configured trigger kind) and leaves every
other engine field unchanged. -/
theorem manual_trigger_behavior (s : EngineState) (hookId : String)
    (data : Option String) :
    (mapGet s.activeHooks hookId = none →
      triggerHook s hookId data = Except.error (EngineError.notFound hookId))
    ∧ (∀ hook : Hook, mapGet s.activeHooks hookId = some hook →
        triggerHook s hookId data = Except.ok
          { s with executionQueue := s.executionQueue ++
              [{ hook := hook, trigger := "manual",
                 data := Payload.manualData data }] }) := by
  refine ⟨fun h => ?_, fun hook h => ?_⟩ <;>
    simp [triggerHook, h, queueHookExecution]

/-- Witness for manual_trigger_behavior: unknown id on the fresh engine,
and a registered custom hook, both at concrete inputs. -/
theorem manual_trigger_behavior_witness :
    triggerHook initialEngine "zz" none
        = Except.error (EngineError.notFound "zz")
    ∧ triggerHook (registerHook 0 initialEngine hCustom1) "hc4" (some "p")
        = Except.ok
          { registerHook 0 initialEngine hCustom1 with
            executionQueue :=
              (registerHook 0 initialEngine hCustom1).executionQueue ++
                [{ hook := hCustom1, trigger := "manual",
                   data := Payload.manualData (some "p") }] } :=
  ⟨(manual_trigger_behavior initialEngine "zz" none).1 rfl,
   (manual_trigger_behavior (registerHook 0 initialEngine hCustom1) "hc4"
      (some "p")).2 hCustom1 rfl⟩

/-- C10: executeHook stamps lastExecuted with the current time before any
action is invoked, so the stamp is present in the resulting hook object
whether the execution succeeds or fails. -/
theorem executeHook_stamps_lastExecuted (fails : String → Bool) (now : Nat)
    (hook : Hook) (trigger : String) (data : Payload) :
    (executeHook fails now hook trigger data).hook.lastExecuted = some now := by
  rw [executeHook]
  split <;> rfl

/-- C9: dispose disposes every tracked watcher, empties the registry and
the watcher table, and discards every still-pending queued execution (the
queue is cleared and nothing is run), whereas unregisterHook never touches
the queue, so entries enqueued before unregistration remain to be run. -/
theorem dispose_clears_engine_and_drops_queue (s : EngineState)
    (hookId : String) :
    (dispose s).activeHooks = []
    ∧ (dispose s).fileWatchers = []
    ∧ (dispose s).executionQueue = []
    ∧ ((dispose s).watchers.all
        (fun w => !isTracked s w.wid || w.disposed)) = true
    ∧ (unregisterHook s hookId).executionQueue = s.executionQueue := by
  refine ⟨rfl, rfl, rfl, ?_, ?_⟩
  · rw [List.all_eq_true]
    intro w' hw'
    simp only [dispose, List.mem_map] at hw'
    obtain ⟨w, hw, rfl⟩ := hw'
    by_cases ht : isTracked s w.wid = true
    · simp [ht]
    · rw [Bool.not_eq_true] at ht
      simp [ht]
  · cases h1 : mapGet s.activeHooks hookId
    · simp [unregisterHook, h1]
    · cases h2 : mapGet s.fileWatchers hookId <;>
        simp [unregisterHook, h1, h2]

/-- C7: when the first failing action of a queued execution raises, the
remaining actions are not invoked, the hook object ends in status error,
the notification is a failure that offers Retry, nothing is re-enqueued by
the engine itself, and the consumer proceeds to the remaining queue
entries unchanged. -/
theorem failing_action_aborts_and_marks_error (fails : String → Bool)
    (now : Nat) (hook : Hook) (trigger : String) (data : Payload)
    (pre post : List String) (a : String) (rest : List QueueEntry)
    (hactions : hook.actions = pre ++ a :: post)
    (hpre : ∀ b ∈ pre, fails b = false) (ha : fails a = true) :
    (executeHook fails now hook trigger data).invoked = pre ++ [a]
    ∧ (executeHook fails now hook trigger data).hook.status = Status.error
    ∧ (executeHook fails now hook trigger data).notif
        = Notification.failure hook.name true
    ∧ drainQueue fails now
          ({ hook := hook, trigger := trigger, data := data } :: rest)
        = ({ hook := hook, trigger := trigger, data := data },
            executeHook fails now hook trigger data)
            :: drainQueue fails now rest := by
  have hr : runActions fails hook.actions = (pre ++ [a], true) := by
    rw [hactions]; exact runActions_fail fails a ha pre hpre post
  refine ⟨?_, ?_, ?_, rfl⟩ <;> simp [executeHook, hr]

/-- Witness for failing_action_aborts_and_marks_error: the hook with
actions ok, bad, skip, where exactly the action bad raises. -/
theorem failing_action_aborts_witness :
    (executeHook (fun x => x == "bad") 7 hFail "manual"
        (Payload.manualData none)).invoked = ["ok", "bad"]
    ∧ (executeHook (fun x => x == "bad") 7 hFail "manual"
        (Payload.manualData none)).hook.status = Status.error
    ∧ (executeHook (fun x => x == "bad") 7 hFail "manual"
        (Payload.manualData none)).notif = Notification.failure "h4" true
    ∧ drainQueue (fun x => x == "bad") 7
          [{ hook := hFail, trigger := "manual", data := Payload.manualData none }]
        = [({ hook := hFail, trigger := "manual",
              data := Payload.manualData none },
            executeHook (fun x => x == "bad") 7 hFail "manual"
              (Payload.manualData none))] := by
  have h := failing_action_aborts_and_marks_error (fun x => x == "bad") 7 hFail
    "manual" (Payload.manualData none) ["ok"] ["skip"] "bad" [] rfl
    (by decide) rfl
  exact ⟨h.1, h.2.1, h.2.2.1, h.2.2.2⟩

/-- C3 counterexample: the custom hook with actions a.txt and x/a.txt gets
enqueued twice by the single change event for d/x/a.txt (both derived
patterns match), so one change event enqueues the same hook more than
once. -/
theorem overlapping_patterns_double_enqueue :
    ((fireChange (registerHook 0 initialEngine hCustom2)
        "d/x/a.txt").executionQueue).map (fun e => e.hook.id)
      = ["hc", "hc"] := rfl

/-- C3 amended: a single change event enqueues a registered custom hook
once per action-derived watcher whose pattern matches the changed path —
which can be more than once per event (no per-event deduplication).  The
count equals the number of actions whose derived pattern matches, for
actions whose derived pattern is not one of the two fixed post-save
patterns. -/
theorem custom_hook_enqueue_count (hook : Hook) (now : Nat) (p : String)
    (he : hook.enabled = true) (hc : hook.trigger = Trigger.custom)
    (hplain : ∀ a ∈ hook.actions,
      ("**/" ++ a) ≠ srcPat ∧ ("**/" ++ a) ≠ docPat) :
    ((fireChange (registerHook now initialEngine hook) p).executionQueue).length
      = (hook.actions.filter (fun a => globMatch ("**/" ++ a) p)).length := by
  obtain ⟨h1, h2, _, _⟩ := registerHook_custom hook he hc now initialEngine
  rw [fireChange_queue, h1, h2]
  simp only [initialEngine, List.nil_append, List.length_map]
  rw [customWatchList_filter_length]
  rw [← List.countP_eq_length_filter, List.countP_map,
    ← List.countP_eq_length_filter]
  cases hcc : customCond hook p
  · have hz : ∀ a ∈ hook.actions, globMatch ("**/" ++ a) p = false := by
      intro a hma
      cases hgb : globMatch ("**/" ++ a) p
      · rfl
      · exfalso
        have hincl := globMatch_strIncludes a p (hplain a hma).1
          (hplain a hma).2 hgb
        have hct : customCond hook p = true := by
          rw [customCond, List.any_eq_true]
          exact ⟨a, hma, by rw [hincl]; exact Bool.or_true _⟩
        rw [hcc] at hct
        exact Bool.false_ne_true hct
    have r0 : List.countP
        (fun a => globMatch ("**/" ++ a) p) hook.actions = 0 :=
      List.countP_eq_zero.mpr (fun a ha => by simp [hz a ha])
    rw [r0]
    have hcomp : ((fun q => globMatch q p && false) ∘ (fun a => "**/" ++ a))
        = (fun a : String => false) := by
      funext a; simp
    rw [hcomp]
    simp
  · have hcomp : ((fun q => globMatch q p && true) ∘ (fun a => "**/" ++ a))
        = (fun a => globMatch ("**/" ++ a) p) := by
      funext a; simp
    rw [hcomp]

/-- Witness for custom_hook_enqueue_count at the overlapping-pattern hook
and the path d/x/a.txt. -/
theorem custom_hook_enqueue_count_witness :
    ((fireChange (registerHook 0 initialEngine hCustom2)
        "d/x/a.txt").executionQueue).length
      = (hCustom2.actions.filter
          (fun a => globMatch ("**/" ++ a) "d/x/a.txt")).length :=
  custom_hook_enqueue_count hCustom2 0 "d/x/a.txt" rfl rfl (by decide)

/-- C4 counterexample: registering the same custom hook twice leaves both
created watchers live (neither is disposed), and the next matching change
event enqueues the hook twice — so the previously created watcher
subscription is not disposed and outlives the re-registration. -/
theorem reregistered_old_watcher_still_live :
    ((registerHook 1 (registerHook 0 initialEngine hCustom1)
        hCustom1).watchers).map (fun w => w.disposed) = [false, false]
    ∧ ((fireChange (registerHook 1 (registerHook 0 initialEngine hCustom1)
          hCustom1) "d/a.txt").executionQueue).length = 2 := ⟨rfl, rfl⟩

/-- C4 amended: re-registering an id replaces the stored hook definition,
but does not dispose the previously created watcher subscription: after
re-registration the watchers of both registrations are all still live (the
old one is merely dropped from the tracking map), so subscriptions are not
owned 1:1 by the stored hook. -/
theorem reregistration_keeps_old_watcher (hookA hookB : Hook)
    (now1 now2 : Nat) (heA : hookA.enabled = true)
    (hcA : hookA.trigger = Trigger.custom) (heB : hookB.enabled = true)
    (hcB : hookB.trigger = Trigger.custom) (hid : hookA.id = hookB.id) :
    getHook (registerHook now2 (registerHook now1 initialEngine hookA) hookB)
        hookB.id = some hookB
    ∧ (registerHook now2 (registerHook now1 initialEngine hookA)
        hookB).watchers.length
        = hookA.actions.length + hookB.actions.length
    ∧ (registerHook now2 (registerHook now1 initialEngine hookA)
        hookB).watchers.all (fun w => !w.disposed) = true := by
  obtain ⟨hw1, hq1, ha1, hn1⟩ :=
    registerHook_custom hookA heA hcA now1 initialEngine
  obtain ⟨hw2, hq2, ha2, hn2⟩ :=
    registerHook_custom hookB heB hcB now2
      (registerHook now1 initialEngine hookA)
  refine ⟨?_, ?_, ?_⟩
  · rw [getHook, ha2]; exact mapGet_mapSet_self _ _ _
  · rw [hw2, hw1]
    simp [customWatchList_length, initialEngine]
  · rw [List.all_eq_true]
    intro w hw
    rw [hw2, hw1] at hw
    simp only [initialEngine, List.nil_append, List.mem_append] at hw
    rcases hw with h | h
    · rw [customWatchList_live hookA _ _ w h]; rfl
    · rw [customWatchList_live hookB _ _ w h]; rfl

/-- Witness for reregistration_keeps_old_watcher: the single-action custom
hook registered twice. -/
theorem reregistration_keeps_old_watcher_witness :
    getHook (registerHook 1 (registerHook 0 initialEngine hCustom1)
        hCustom1) "hc4" = some hCustom1
    ∧ (registerHook 1 (registerHook 0 initialEngine hCustom1)
        hCustom1).watchers.length = 2
    ∧ (registerHook 1 (registerHook 0 initialEngine hCustom1)
        hCustom1).watchers.all (fun w => !w.disposed) = true := by
  have h := reregistration_keeps_old_watcher hCustom1 hCustom1 0 1
    rfl rfl rfl rfl rfl
  exact ⟨h.1, h.2.1, h.2.2⟩
